import Mathlib

/-!
Verification of `milter-addmessageid.py`, a milter that adds a `Message-ID`
header to mails lacking one.

The embedding models:
- header names/values as byte lists (`List Nat`, each element `< 256`);
- the milter session (`MessageIDMilter`) with its single flag `has_messageid`;
- the four callbacks `header`, `eob`, `abort`, `close`;
- the identifier generator `create_messageid`, parameterised by its effectful
  inputs (the microsecond timestamp, the two 8-byte random draws and the
  resolved fqdn);
- startup directory provisioning (`try: os.mkdir(...) except OSError: pass`);
- Python attribute semantics (class-level default, per-instance override) for
  the multi-session isolation property.
-/

namespace AddMessageID

/-- Milter response codes from libmilter; the source only ever returns
`CONTINUE`, but the type has the other verdicts so that "returns CONTINUE"
is a real statement. -/
inductive Verdict where
  | CONTINUE
  | REJECT
  | DISCARD
  | ACCEPT
  | TEMPFAIL
  | SKIP
deriving DecidableEq, Repr

/-- Session state of the milter: the single mutable flag.
In the source the initial `False` is a class-level attribute. -/
structure MessageIDMilter where
  has_messageid : Bool
deriving DecidableEq, Repr

/-- The state of a freshly constructed milter instance: reading
`has_messageid` falls back to the class attribute `False`. -/
def initialSession : MessageIDMilter := ⟨false⟩

/-- Python `bytes.lower` on a single byte: ASCII `A`-`Z` maps to `a`-`z`,
everything else is unchanged. -/
def byteLower (b : Nat) : Nat :=
  if 65 ≤ b ∧ b ≤ 90 then b + 32 else b

/-- Python `bytes.lower`: lowercase each byte. -/
def bytesLower (bs : List Nat) : List Nat := bs.map byteLower

/-- The byte literal `b"message-id"`. -/
def messageIdBytes : List Nat := [109, 101, 115, 115, 97, 103, 101, 45, 105, 100]

/-- The byte literal `b"Message-ID"` used as the injected header name. -/
def msgIdHeaderKey : List Nat := [77, 101, 115, 115, 97, 103, 101, 45, 73, 68]

/-- `MessageIDMilter.header(self, key, val, cmdDict)`:
```
if key.lower() == b"message-id":
    self.has_messageid = True
return lm.CONTINUE
```
Returns the updated session and the verdict; `val` and `cmdDict` are never
read (`cmdDict` is omitted from the embedding since nothing touches it). -/
def header (s : MessageIDMilter) (key : List Nat) (val : List Nat) :
    MessageIDMilter × Verdict :=
  if bytesLower key = messageIdBytes then
    ({ has_messageid := true }, .CONTINUE)
  else
    (s, .CONTINUE)

/-- `MessageIDMilter.close(self)`: `self.has_messageid = False`. -/
def close (s : MessageIDMilter) : MessageIDMilter :=
  { s with has_messageid := false }

/-- `MessageIDMilter.abort(self)`: `self.has_messageid = False`. -/
def abort (s : MessageIDMilter) : MessageIDMilter :=
  { s with has_messageid := false }

/-- The character for decimal digit `d` (`d < 10`), i.e. `'0' + d`. -/
def digitChar (d : Nat) : Char := Char.ofNat (48 + d)

/-- The lowercase hexadecimal digit character for `d < 16`:
`'0'`-`'9'` then `'a'`-`'f'` (97 = `'a'` = 87 + 10). -/
def hexDigitChar (d : Nat) : Char :=
  if d < 10 then Char.ofNat (48 + d) else Char.ofNat (87 + d)

/-- Fuel-driven decimal rendering, most significant digit first; mirrors
Python `str` on a non-negative int. `fuel` only bounds the recursion. -/
def decimalCore : Nat → Nat → List Char → List Char
  | 0, _, acc => acc
  | fuel + 1, n, acc =>
    let acc' := digitChar (n % 10) :: acc
    if n < 10 then acc' else decimalCore fuel (n / 10) acc'

/-- Python `str(n)` for a non-negative integer `n`, as a character list. -/
def decimalStr (n : Nat) : List Char := decimalCore (n + 1) n []

/-- Python `bytes.hex()`: each byte becomes two lowercase hex characters,
high nibble first. -/
def bytesToHex : List Nat → List Char
  | [] => []
  | b :: bs => hexDigitChar (b / 16) :: hexDigitChar (b % 16) :: bytesToHex bs

/-- UTF-8 encoding of a single Unicode scalar value (1 to 4 bytes). -/
def utf8EncodeChar (c : Char) : List Nat :=
  let n := c.toNat
  if n < 128 then [n]
  else if n < 2048 then [192 + n / 64, 128 + n % 64]
  else if n < 65536 then [224 + n / 4096, 128 + n / 64 % 64, 128 + n % 64]
  else [240 + n / 262144, 128 + n / 4096 % 64, 128 + n / 64 % 64, 128 + n % 64]

/-- Python `str.encode("utf8")`: UTF-8 encoding of a character list. -/
def utf8Encode : List Char → List Nat
  | [] => []
  | c :: cs => utf8EncodeChar c ++ utf8Encode cs

/-- `MessageIDMilter.create_messageid(self)`:
```
microseconds = str(int(time.time() * 1000000))
random_part = os.urandom(8).hex()
fqdn = socket.getfqdn()
if not fqdn:
    fqdn = os.urandom(8).hex()
message_id = " <" + microseconds + "." + random_part + "@" + fqdn + ">"
return message_id.encode("utf8")
```
The effectful inputs are parameters: `t` is the integer microsecond
timestamp, `r` the first 8-byte draw from `os.urandom`, `fqdn` the resolved
domain name, and `r2` the second 8-byte draw (consumed only when `fqdn` is
empty, matching Python falsiness of the empty string). -/
def create_messageid (t : Nat) (r : List Nat) (fqdn : List Char) (r2 : List Nat) :
    List Nat :=
  let microseconds := decimalStr t
  let random_part := bytesToHex r
  let fq := if fqdn = [] then bytesToHex r2 else fqdn
  utf8Encode ([' ', '<'] ++ microseconds ++ ['.'] ++ random_part ++ ['@'] ++ fq ++ ['>'])

/-- `MessageIDMilter.eob(self, cmdDict)`:
```
if self.has_messageid:
    self.has_messageid = False
    return lm.CONTINUE
else:
    key = b"Message-ID"
    val = self.create_messageid()
    self.log(...)
    self.addHeader(key, val)
    return lm.CONTINUE
```
Returns the updated session, the verdict, and the requested header
injection (the `addHeader` call), if any; the generator's effectful inputs
are passed through. -/
def eob (s : MessageIDMilter) (t : Nat) (r : List Nat) (fqdn : List Char)
    (r2 : List Nat) : MessageIDMilter × Verdict × Option (List Nat × List Nat) :=
  if s.has_messageid then
    ({ s with has_messageid := false }, .CONTINUE, none)
  else
    (s, .CONTINUE, some (msgIdHeaderKey, create_messageid t r fqdn r2))

/-- Process a list of `(name, value)` header callbacks in order, threading the
session state (each callback's verdict is `CONTINUE` and does not stop the
fold, matching the milter protocol's continue semantics). -/
def runHeaders (s : MessageIDMilter) (hs : List (List Nat × List Nat)) :
    MessageIDMilter :=
  hs.foldl (fun st kv => (header st kv.1 kv.2).1) s

/-! ### Startup directory provisioning

`run_messageidmilter` begins with
```
socketpath = "/var/run/milter"
try:
    os.mkdir(socketpath, 0o755)
except OSError:
    # directory already exists, continue.
    pass
```
We model the outcome of the `os.mkdir` call abstractly and the `try/except`
faithfully: every `OSError` (of which `FileExistsError` and
`PermissionError` are subclasses) is swallowed. -/

/-- Possible outcomes of the `os.mkdir("/var/run/milter", 0o755)` call. -/
inductive MkdirOutcome where
  | success
  /-- `FileExistsError` (errno `EEXIST`), a subclass of `OSError`. -/
  | errEExist
  /-- `PermissionError` (errno `EACCES`), a subclass of `OSError`. -/
  | errEAcces
  /-- Any other `OSError` (e.g. `ENOENT`, `EROFS`, `ENOSPC`). -/
  | errOtherOS
deriving DecidableEq, Repr

/-- Whether the outcome is an exception caught by `except OSError`:
every error variant here is an `OSError` subclass. -/
def isOSError : MkdirOutcome → Bool
  | .success => false
  | _ => true

/-- The directory-provisioning step of `run_messageidmilter`:
`try: os.mkdir(...) except OSError: pass`. Returns `.ok ()` when startup
proceeds past this step and `.error e` when the exception propagates and
aborts startup. -/
def provisionSocketDir (o : MkdirOutcome) : Except MkdirOutcome Unit :=
  match o with
  | .success => .ok ()
  | e => if isOSError e then .ok () else .error e

/-- Modelled from the spec: the intended provisioning behaviour, which the
spec states as "failure to create it for any reason other than
\"already exists\" should surface as a startup error, not be silently
swallowed" — only the already-exists condition is ignored. -/
def provisionSocketDirSpec (o : MkdirOutcome) : Except MkdirOutcome Unit :=
  match o with
  | .success => .ok ()
  | .errEExist => .ok ()
  | e => .error e

/-! ### Python attribute semantics for multiple milter instances

`has_messageid = False` on line 58 declares a **class** attribute. Every
mutation in the source is an assignment `self.has_messageid = ...`, which
creates/overwrites an entry in the *instance* dictionary, and every read
`self.has_messageid` consults the instance dictionary first and falls back
to the class attribute. We model a world of instances (indexed by `Nat`)
with exactly these lookup/assignment semantics, and each callback acting on
one instance. -/

/-- The attribute state of all `MessageIDMilter` instances:
the class attribute plus each instance's optional `__dict__` entry. -/
structure PyWorld where
  /-- The class attribute `MessageIDMilter.has_messageid` (`False` in the
  source, never assigned to after class creation). -/
  classAttr : Bool
  /-- `inst.__dict__["has_messageid"]` for each instance, when present. -/
  instAttr : Nat → Option Bool

/-- The world at module load: class attribute `False`, no instance has a
`has_messageid` entry in its own `__dict__` yet. -/
def initialWorld : PyWorld := ⟨false, fun _ => none⟩

/-- Python attribute read `self.has_messageid` on instance `i`:
instance `__dict__` first, then the class attribute. -/
def readFlag (w : PyWorld) (i : Nat) : Bool :=
  (w.instAttr i).getD w.classAttr

/-- Python attribute assignment `self.has_messageid = b` on instance `i`:
always writes the instance `__dict__`, never the class attribute. -/
def writeFlag (w : PyWorld) (i : Nat) (b : Bool) : PyWorld :=
  { w with instAttr := fun j => if j = i then some b else w.instAttr j }

/-- `header` running on instance `i` of the world. -/
def headerAt (w : PyWorld) (i : Nat) (key : List Nat) (val : List Nat) :
    PyWorld × Verdict :=
  if bytesLower key = messageIdBytes then (writeFlag w i true, .CONTINUE)
  else (w, .CONTINUE)

/-- `eob` running on instance `i` of the world. -/
def eobAt (w : PyWorld) (i : Nat) (t : Nat) (r : List Nat) (fqdn : List Char)
    (r2 : List Nat) : PyWorld × Verdict × Option (List Nat × List Nat) :=
  if readFlag w i then (writeFlag w i false, .CONTINUE, none)
  else (w, .CONTINUE, some (msgIdHeaderKey, create_messageid t r fqdn r2))

/-- `abort` running on instance `i` of the world. -/
def abortAt (w : PyWorld) (i : Nat) : PyWorld := writeFlag w i false

/-- `close` running on instance `i` of the world. -/
def closeAt (w : PyWorld) (i : Nat) : PyWorld := writeFlag w i false

/-! ### Shared lemmas -/

theorem bytesLower_messageIdBytes : bytesLower messageIdBytes = messageIdBytes := by
  decide

theorem header_fst (s : MessageIDMilter) (k v : List Nat) :
    (header s k v).1.has_messageid
      = (s.has_messageid || decide (bytesLower k = messageIdBytes)) := by
  unfold header
  by_cases h : bytesLower k = messageIdBytes <;> simp [h]

theorem header_snd (s : MessageIDMilter) (k v : List Nat) :
    (header s k v).2 = Verdict.CONTINUE := by
  unfold header
  by_cases h : bytesLower k = messageIdBytes <;> simp [h]

theorem runHeaders_flag (hs : List (List Nat × List Nat)) (s : MessageIDMilter) :
    (runHeaders s hs).has_messageid
      = (s.has_messageid
          || hs.any (fun kv => decide (bytesLower kv.1 = messageIdBytes))) := by
  induction hs generalizing s with
  | nil => simp [runHeaders]
  | cons kv tl ih =>
    have hstep : runHeaders s (kv :: tl) = runHeaders (header s kv.1 kv.2).1 tl := rfl
    rw [hstep, ih, header_fst]
    simp [Bool.or_assoc]

theorem session_eta (s : MessageIDMilter) : s = ⟨s.has_messageid⟩ := rfl

theorem eob_flag_false (s : MessageIDMilter) (t : Nat) (r : List Nat)
    (fqdn : List Char) (r2 : List Nat) :
    ((eob s t r fqdn r2).1).has_messageid = false := by
  unfold eob
  cases h : s.has_messageid <;> simp [h]

/-! ### Lemmas on decimal, hexadecimal and UTF-8 rendering -/

/-- Whether `c` is a lowercase hexadecimal digit: `0`-`9` or `a`-`f`. -/
def isLowerHexDigit (c : Char) : Bool :=
  c.isDigit || (97 ≤ c.toNat && c.toNat ≤ 102)

theorem digitChar_isDigit (d : Nat) (hd : d < 10) : (digitChar d).isDigit = true := by
  interval_cases d <;> decide

theorem decimalCore_digits (fuel : Nat) :
    ∀ n acc, (∀ c ∈ acc, c.isDigit = true) →
      ∀ c ∈ decimalCore fuel n acc, c.isDigit = true := by
  induction fuel with
  | zero => intro n acc hacc c hc; exact hacc c hc
  | succ fuel ih =>
    intro n acc hacc c hc
    have hd : ∀ x ∈ digitChar (n % 10) :: acc, x.isDigit = true := by
      intro x hx
      rcases List.mem_cons.mp hx with h | h
      · exact h ▸ digitChar_isDigit _ (Nat.mod_lt _ (by omega))
      · exact hacc x h
    unfold decimalCore at hc
    by_cases hn : n < 10
    · simp only [hn, if_pos] at hc
      exact hd c hc
    · simp only [hn, if_neg, if_false] at hc
      exact ih (n / 10) _ hd c hc

theorem decimalCore_length_le (fuel : Nat) :
    ∀ n acc, acc.length ≤ (decimalCore fuel n acc).length := by
  induction fuel with
  | zero => intro n acc; exact Nat.le_refl _
  | succ fuel ih =>
    intro n acc
    unfold decimalCore
    by_cases hn : n < 10
    · simp [hn]
    · simp only [hn, if_neg, if_false]
      calc acc.length ≤ (digitChar (n % 10) :: acc).length := by simp
        _ ≤ _ := ih (n / 10) _

theorem decimalStr_ne_nil (n : Nat) : decimalStr n ≠ [] := by
  unfold decimalStr decimalCore
  by_cases hn : n < 10
  · simp [hn]
  · simp only [hn, if_neg, if_false]
    intro h
    have := decimalCore_length_le n (n / 10) [digitChar (n % 10)]
    rw [h] at this
    simp at this

theorem decimalStr_digits (n : Nat) : ∀ c ∈ decimalStr n, c.isDigit = true :=
  decimalCore_digits (n + 1) n [] (by intro c hc; cases hc)

theorem hexDigitChar_lowerHex (d : Nat) (hd : d < 16) :
    isLowerHexDigit (hexDigitChar d) = true := by
  interval_cases d <;> decide

theorem hexDigitChar_ascii (d : Nat) (hd : d < 16) : (hexDigitChar d).toNat < 128 := by
  interval_cases d <;> decide

theorem hexDigitChar_inj (a b : Nat) (ha : a < 16) (hb : b < 16)
    (h : hexDigitChar a = hexDigitChar b) : a = b := by
  revert h
  interval_cases a <;> interval_cases b <;> decide

theorem bytesToHex_length (bs : List Nat) : (bytesToHex bs).length = 2 * bs.length := by
  induction bs with
  | nil => rfl
  | cons b tl ih => simp [bytesToHex, ih]; omega

theorem bytesToHex_lowerHex (bs : List Nat) (hb : ∀ b ∈ bs, b < 256) :
    ∀ c ∈ bytesToHex bs, isLowerHexDigit c = true := by
  induction bs with
  | nil => intro c hc; cases hc
  | cons b tl ih =>
    intro c hc
    have hb0 : b < 256 := hb b (List.mem_cons_self b tl)
    have hdiv : b / 16 < 16 := by omega
    have hmod : b % 16 < 16 := Nat.mod_lt _ (by omega)
    rcases List.mem_cons.mp hc with h | h
    · exact h ▸ hexDigitChar_lowerHex _ hdiv
    · rcases List.mem_cons.mp h with h' | h'
      · exact h' ▸ hexDigitChar_lowerHex _ hmod
      · exact ih (fun x hx => hb x (List.mem_cons_of_mem _ hx)) c h'

theorem bytesToHex_ascii (bs : List Nat) (hb : ∀ b ∈ bs, b < 256) :
    ∀ c ∈ bytesToHex bs, c.toNat < 128 := by
  induction bs with
  | nil => intro c hc; cases hc
  | cons b tl ih =>
    intro c hc
    have hb0 : b < 256 := hb b (List.mem_cons_self b tl)
    have hdiv : b / 16 < 16 := by omega
    have hmod : b % 16 < 16 := Nat.mod_lt _ (by omega)
    rcases List.mem_cons.mp hc with h | h
    · exact h ▸ hexDigitChar_ascii _ hdiv
    · rcases List.mem_cons.mp h with h' | h'
      · exact h' ▸ hexDigitChar_ascii _ hmod
      · exact ih (fun x hx => hb x (List.mem_cons_of_mem _ hx)) c h'

theorem bytesToHex_inj (bs₁ : List Nat) :
    ∀ bs₂, (∀ b ∈ bs₁, b < 256) → (∀ b ∈ bs₂, b < 256) →
      bs₁.length = bs₂.length → bytesToHex bs₁ = bytesToHex bs₂ → bs₁ = bs₂ := by
  induction bs₁ with
  | nil =>
    intro bs₂ _ _ hlen _
    cases bs₂ with
    | nil => rfl
    | cons b tl => simp at hlen
  | cons a tl₁ ih =>
    intro bs₂ h₁ h₂ hlen hhex
    cases bs₂ with
    | nil => simp at hlen
    | cons b tl₂ =>
      have ha : a < 256 := h₁ a (List.mem_cons_self a tl₁)
      have hb : b < 256 := h₂ b (List.mem_cons_self b tl₂)
      simp only [bytesToHex, List.cons.injEq] at hhex
      obtain ⟨hhi, hlo, htl⟩ := hhex
      have hdiv : a / 16 = b / 16 :=
        hexDigitChar_inj _ _ (by omega) (by omega) hhi
      have hmod : a % 16 = b % 16 :=
        hexDigitChar_inj _ _ (Nat.mod_lt _ (by omega)) (Nat.mod_lt _ (by omega)) hlo
      have hab : a = b := by omega
      have htl' : tl₁ = tl₂ :=
        ih tl₂ (fun x hx => h₁ x (List.mem_cons_of_mem _ hx))
          (fun x hx => h₂ x (List.mem_cons_of_mem _ hx)) (by simpa using hlen) htl
      rw [hab, htl']

theorem utf8Encode_append (a b : List Char) :
    utf8Encode (a ++ b) = utf8Encode a ++ utf8Encode b := by
  induction a with
  | nil => rfl
  | cons c tl ih => simp [utf8Encode, ih]

theorem utf8EncodeChar_ascii (c : Char) (h : c.toNat < 128) :
    utf8EncodeChar c = [c.toNat] := by
  unfold utf8EncodeChar
  simp [h]

theorem utf8Encode_ascii (l : List Char) (h : ∀ c ∈ l, c.toNat < 128) :
    utf8Encode l = l.map Char.toNat := by
  induction l with
  | nil => rfl
  | cons c tl ih =>
    simp only [utf8Encode, List.map_cons]
    rw [utf8EncodeChar_ascii c (h c (List.mem_cons_self c tl)),
      ih (fun x hx => h x (List.mem_cons_of_mem _ hx))]
    rfl

theorem char_toNat_inj {c d : Char} (h : c.toNat = d.toNat) : c = d := by
  have := congrArg Char.ofNat h
  rwa [Char.ofNat_toNat, Char.ofNat_toNat] at this

theorem map_toNat_inj (l₁ : List Char) :
    ∀ l₂, l₁.map Char.toNat = l₂.map Char.toNat → l₁ = l₂ := by
  induction l₁ with
  | nil =>
    intro l₂ h
    cases l₂ with
    | nil => rfl
    | cons c tl => simp at h
  | cons c tl ih =>
    intro l₂ h
    cases l₂ with
    | nil => simp at h
    | cons d tl₂ =>
      simp only [List.map_cons, List.cons.injEq] at h
      rw [char_toNat_inj h.1, ih tl₂ h.2]

/-! ### Claims C1, C2, C4, C5, C6, C7, C8, C10 -/

/-- C1: for every sequence of header callbacks in which no header name is
byte-wise case-insensitively equal to `"message-id"`, the end-of-message
operation requests exactly one header injection, with header name
`b"Message-ID"` and value equal to the output of the identifier generator,
and returns the verdict `CONTINUE`. -/
theorem c1_no_messageid_injects_one (hs : List (List Nat × List Nat))
    (t : Nat) (r : List Nat) (fqdn : List Char) (r2 : List Nat)
    (hnone : ∀ kv ∈ hs, bytesLower kv.1 ≠ bytesLower messageIdBytes) :
    eob (runHeaders initialSession hs) t r fqdn r2
      = (⟨false⟩, Verdict.CONTINUE,
          some (msgIdHeaderKey, create_messageid t r fqdn r2)) := by
  have hany : hs.any (fun kv => decide (bytesLower kv.1 = messageIdBytes)) = false := by
    rw [List.any_eq_false]
    intro kv hkv
    simpa using (bytesLower_messageIdBytes ▸ hnone kv hkv)
  have hflag : (runHeaders initialSession hs).has_messageid = false := by
    rw [runHeaders_flag, hany]
    rfl
  have hstate : runHeaders initialSession hs = ⟨false⟩ := by rw [← hflag]
  rw [hstate]
  simp [eob]

theorem c1_witness :
    (∀ kv ∈ [(([70, 114, 111, 109] : List Nat), ([97] : List Nat))],
        bytesLower kv.1 ≠ bytesLower messageIdBytes)
    ∧ eob (runHeaders initialSession [(([70, 114, 111, 109] : List Nat), ([97] : List Nat))])
          12345 [0, 1, 2, 3, 4, 5, 6, 7] ['h', 'o', 's', 't'] [8, 9, 10, 11, 12, 13, 14, 15]
        = (⟨false⟩, Verdict.CONTINUE,
            some (msgIdHeaderKey,
              create_messageid 12345 [0, 1, 2, 3, 4, 5, 6, 7] ['h', 'o', 's', 't']
                [8, 9, 10, 11, 12, 13, 14, 15])) :=
  ⟨by decide,
   c1_no_messageid_injects_one _ 12345 [0, 1, 2, 3, 4, 5, 6, 7] ['h', 'o', 's', 't']
     [8, 9, 10, 11, 12, 13, 14, 15] (by decide)⟩

/-- C2: for every sequence of header callbacks containing at least one header
whose name is byte-wise case-insensitively equal to `"message-id"` (any
value), the end-of-message operation requests no header injection, returns
`CONTINUE`, and the session flag `has_messageid` is `false` immediately
afterward. -/
theorem c2_messageid_present_no_injection (hs : List (List Nat × List Nat))
    (t : Nat) (r : List Nat) (fqdn : List Char) (r2 : List Nat)
    (hsome : ∃ kv ∈ hs, bytesLower kv.1 = bytesLower messageIdBytes) :
    eob (runHeaders initialSession hs) t r fqdn r2
      = (⟨false⟩, Verdict.CONTINUE, none) := by
  have hany : hs.any (fun kv => decide (bytesLower kv.1 = messageIdBytes)) = true := by
    rw [List.any_eq_true]
    obtain ⟨kv, hkv, heq⟩ := hsome
    exact ⟨kv, hkv, by simpa using (bytesLower_messageIdBytes ▸ heq)⟩
  have hflag : (runHeaders initialSession hs).has_messageid = true := by
    rw [runHeaders_flag, hany]
    rfl
  unfold eob
  rw [hflag]
  simp

theorem c2_witness :
    (∃ kv ∈ [(([77, 69, 83, 83, 65, 71, 69, 45, 73, 68] : List Nat), ([60] : List Nat))],
        bytesLower kv.1 = bytesLower messageIdBytes)
    ∧ eob (runHeaders initialSession
            [(([77, 69, 83, 83, 65, 71, 69, 45, 73, 68] : List Nat), ([60] : List Nat))])
          7 [0, 0, 0, 0, 0, 0, 0, 0] [] [0, 0, 0, 0, 0, 0, 0, 0]
        = (⟨false⟩, Verdict.CONTINUE, none) :=
  ⟨by decide,
   c2_messageid_present_no_injection _ 7 [0, 0, 0, 0, 0, 0, 0, 0] []
     [0, 0, 0, 0, 0, 0, 0, 0] (by decide)⟩

/-- C4: for every session state, every header name (including the empty byte
string and arbitrary bytes) and every header value, the header callback
returns `CONTINUE`, and its resulting flag is `true` when the name is
byte-wise case-insensitively equal to `"message-id"` and the previous flag
value otherwise. -/
theorem c4_header_continue_and_flag (s : MessageIDMilter) (k v : List Nat) :
    (header s k v).2 = Verdict.CONTINUE
    ∧ (header s k v).1.has_messageid
        = (if bytesLower k = bytesLower messageIdBytes then true
           else s.has_messageid) := by
  refine ⟨header_snd s k v, ?_⟩
  rw [header_fst, bytesLower_messageIdBytes]
  by_cases h : bytesLower k = messageIdBytes <;> simp [h]

/-- C5: once the session flag is `true`, a header callback never sets it back
to `false` (the new flag is the old one OR-ed with the match result), and
the operations that do reset it to `false` are exactly the explicit resets
performed by end-of-message, abort and close. -/
theorem c5_flag_monotone_until_reset (s : MessageIDMilter) (k v : List Nat)
    (t : Nat) (r : List Nat) (fqdn : List Char) (r2 : List Nat) :
    (header s k v).1.has_messageid
        = (s.has_messageid || decide (bytesLower k = bytesLower messageIdBytes))
    ∧ ((eob s t r fqdn r2).1).has_messageid = false
    ∧ (abort s).has_messageid = false
    ∧ (close s).has_messageid = false :=
  ⟨by rw [header_fst, bytesLower_messageIdBytes],
   eob_flag_false s t r fqdn r2, rfl, rfl⟩

/-- C6: abort and close unconditionally reset the flag to `false` (they
return only the mutated session, no other result), each is idempotent, and
a transaction run after either reset is decided independently of the prior
session state: two arbitrary prior states lead to identical header-phase and
end-of-message results. -/
theorem c6_reset_idempotent_independent (s s' : MessageIDMilter)
    (hs : List (List Nat × List Nat)) (t : Nat) (r : List Nat)
    (fqdn : List Char) (r2 : List Nat) :
    (abort s).has_messageid = false
    ∧ (close s).has_messageid = false
    ∧ abort (abort s) = abort s
    ∧ close (close s) = close s
    ∧ eob (runHeaders (abort s) hs) t r fqdn r2
        = eob (runHeaders (abort s') hs) t r fqdn r2
    ∧ eob (runHeaders (close s) hs) t r fqdn r2
        = eob (runHeaders (close s') hs) t r fqdn r2 := by
  refine ⟨rfl, rfl, rfl, rfl, ?_, ?_⟩ <;>
    · have h1 : abort s = abort s' := rfl
      have h2 : close s = close s' := rfl
      first
        | rw [h1]
        | rw [h2]

/-- C7: the source's startup provisioning swallows a `PermissionError`
(errno `EACCES`) silently — `except OSError: pass` catches every `OSError`
subclass — whereas the intended behaviour modelled from the spec surfaces
every failure other than already-exists. The claim is contradicted by the
code at this input; the comment `# directory already exists, continue.`
documents the intent the code fails to implement. -/
theorem c7_provisioning_swallows_eacces :
    provisionSocketDir MkdirOutcome.errEAcces = Except.ok ()
    ∧ provisionSocketDirSpec MkdirOutcome.errEAcces
        = Except.error MkdirOutcome.errEAcces
    ∧ provisionSocketDir MkdirOutcome.errEExist = Except.ok ()
    ∧ provisionSocketDirSpec MkdirOutcome.errEExist = Except.ok () :=
  ⟨rfl, rfl, rfl, rfl⟩

/-- C8: the header callback's result (verdict and resulting session state) is
identical for any two header values — the value argument is never inspected
and has no influence on behaviour. -/
theorem c8_value_noninterference (s : MessageIDMilter) (k v₁ v₂ : List Nat) :
    header s k v₁ = header s k v₂ := rfl

/-- C10: sessions never mutate or observe each other's flag, under Python
attribute semantics where the initial `False` is a class-level attribute and
every mutation writes the instance dictionary. First, every operation
(header, end-of-message, abort, close) applied to instance `i` leaves the
observable flag of any other instance `j ≠ i` unchanged. Second, an
operation's outcome on instance `i` (verdict, injection decision and
resulting own flag) depends only on the class attribute and on instance
`i`'s own dictionary entry, never on another instance's entry: two worlds
`w`, `w'` agreeing on those produce identical outcomes on `i`. -/
theorem c10_session_isolation (w w' : PyWorld) (i j : Nat) (k v : List Nat)
    (t : Nat) (r : List Nat) (fqdn : List Char) (r2 : List Nat)
    (hij : j ≠ i) (hclass : w.classAttr = w'.classAttr)
    (hinst : w.instAttr i = w'.instAttr i) :
    (readFlag ((headerAt w i k v).1) j = readFlag w j
      ∧ readFlag ((eobAt w i t r fqdn r2).1) j = readFlag w j
      ∧ readFlag (abortAt w i) j = readFlag w j
      ∧ readFlag (closeAt w i) j = readFlag w j)
    ∧ ((headerAt w i k v).2 = (headerAt w' i k v).2
      ∧ readFlag ((headerAt w i k v).1) i = readFlag ((headerAt w' i k v).1) i
      ∧ (eobAt w i t r fqdn r2).2 = (eobAt w' i t r fqdn r2).2
      ∧ readFlag ((eobAt w i t r fqdn r2).1) i
          = readFlag ((eobAt w' i t r fqdn r2).1) i) := by
  have hw : ∀ b, readFlag (writeFlag w i b) j = readFlag w j := by
    intro b
    simp [readFlag, writeFlag, hij]
  have hread : readFlag w i = readFlag w' i := by
    simp [readFlag, hclass, hinst]
  have hwrite : ∀ (u : PyWorld) (b : Bool), readFlag (writeFlag u i b) i = b := by
    intro u b
    simp [readFlag, writeFlag]
  constructor
  · refine ⟨?_, ?_, hw false, hw false⟩
    · unfold headerAt
      by_cases h : bytesLower k = messageIdBytes <;> simp [h, hw]
    · unfold eobAt
      by_cases h : readFlag w i <;> simp [h, hw]
  · refine ⟨?_, ?_, ?_, ?_⟩
    · unfold headerAt
      by_cases h : bytesLower k = messageIdBytes <;> simp [h]
    · unfold headerAt
      by_cases h : bytesLower k = messageIdBytes <;> simp [h, hwrite, hread]
    · unfold eobAt
      rw [← hread]
      by_cases h : readFlag w i <;> simp [h]
    · unfold eobAt
      by_cases h : readFlag w i
      · have h' : readFlag w' i = true := hread ▸ h
        simp [h, h', hwrite]
      · have h0 : readFlag w i = false := by simpa using h
        have h' : readFlag w' i = false := hread ▸ h0
        simp [h0, h', hread]

theorem c10_witness :
    ((1 : Nat) ≠ 0)
    ∧ initialWorld.classAttr = initialWorld.classAttr
    ∧ initialWorld.instAttr 0 = initialWorld.instAttr 0
    ∧ ((readFlag ((headerAt initialWorld 0 msgIdHeaderKey [] ).1) 1
          = readFlag initialWorld 1
        ∧ readFlag ((eobAt initialWorld 0 0 [] [] []).1) 1 = readFlag initialWorld 1
        ∧ readFlag (abortAt initialWorld 0) 1 = readFlag initialWorld 1
        ∧ readFlag (closeAt initialWorld 0) 1 = readFlag initialWorld 1)
      ∧ ((headerAt initialWorld 0 msgIdHeaderKey []).2
            = (headerAt initialWorld 0 msgIdHeaderKey []).2
        ∧ readFlag ((headerAt initialWorld 0 msgIdHeaderKey []).1) 0
            = readFlag ((headerAt initialWorld 0 msgIdHeaderKey []).1) 0
        ∧ (eobAt initialWorld 0 0 [] [] []).2 = (eobAt initialWorld 0 0 [] [] []).2
        ∧ readFlag ((eobAt initialWorld 0 0 [] [] []).1) 0
            = readFlag ((eobAt initialWorld 0 0 [] [] []).1) 0)) :=
  ⟨by decide, rfl, rfl,
   c10_session_isolation initialWorld initialWorld 0 1 msgIdHeaderKey [] 0 [] [] []
     (by decide) rfl rfl⟩

/-- C3: for every non-negative wall-clock timestamp, every 8-byte random
draw and every resolved domain-name string, `create_messageid` produces the
UTF-8 encoding of: one leading space, `<`, one or more decimal digits, `.`,
exactly 16 lowercase hexadecimal characters, `@`, a non-empty token, `>`;
and when domain resolution yields the empty string the token is the 16
lowercase hex characters of the additional 8-byte draw, hence never empty. -/
theorem c3_messageid_format (t : Nat) (r : List Nat) (fqdn : List Char)
    (r2 : List Nat) (hr : r.length = 8) (hrb : ∀ b ∈ r, b < 256)
    (hr2 : r2.length = 8) (hr2b : ∀ b ∈ r2, b < 256) :
    ∃ ds hx tok : List Char,
      create_messageid t r fqdn r2
        = utf8Encode ([' ', '<'] ++ ds ++ ['.'] ++ hx ++ ['@'] ++ tok ++ ['>'])
      ∧ ds ≠ []
      ∧ (∀ c ∈ ds, c.isDigit = true)
      ∧ hx.length = 16
      ∧ (∀ c ∈ hx, isLowerHexDigit c = true)
      ∧ tok ≠ []
      ∧ (fqdn = [] →
          tok = bytesToHex r2 ∧ tok.length = 16
            ∧ (∀ c ∈ tok, isLowerHexDigit c = true)) := by
  refine ⟨decimalStr t, bytesToHex r, if fqdn = [] then bytesToHex r2 else fqdn,
    rfl, decimalStr_ne_nil t, decimalStr_digits t, ?_,
    bytesToHex_lowerHex r hrb, ?_, ?_⟩
  · rw [bytesToHex_length, hr]
  · by_cases hf : fqdn = []
    · simp only [hf, if_pos]
      have hlen : (bytesToHex r2).length = 16 := by rw [bytesToHex_length, hr2]
      intro hnil
      rw [hnil] at hlen
      simp at hlen
    · simp only [hf, if_neg, if_false]
      exact hf
  · intro hf
    rw [if_pos hf]
    exact ⟨rfl, by rw [bytesToHex_length, hr2], bytesToHex_lowerHex r2 hr2b⟩

theorem c3_witness :
    (([1, 35, 69, 103, 137, 171, 205, 239] : List Nat).length = 8)
    ∧ (∀ b ∈ ([1, 35, 69, 103, 137, 171, 205, 239] : List Nat), b < 256)
    ∧ (([255, 254, 253, 252, 251, 250, 249, 248] : List Nat).length = 8)
    ∧ (∀ b ∈ ([255, 254, 253, 252, 251, 250, 249, 248] : List Nat), b < 256)
    ∧ (∃ ds hx tok : List Char,
        create_messageid 1700000000123456 [1, 35, 69, 103, 137, 171, 205, 239]
            ['m', 'a', 'i', 'l'] [255, 254, 253, 252, 251, 250, 249, 248]
          = utf8Encode ([' ', '<'] ++ ds ++ ['.'] ++ hx ++ ['@'] ++ tok ++ ['>'])
        ∧ ds ≠ []
        ∧ (∀ c ∈ ds, c.isDigit = true)
        ∧ hx.length = 16
        ∧ (∀ c ∈ hx, isLowerHexDigit c = true)
        ∧ tok ≠ []
        ∧ (['m', 'a', 'i', 'l'] = ([] : List Char) →
            tok = bytesToHex [255, 254, 253, 252, 251, 250, 249, 248]
              ∧ tok.length = 16 ∧ (∀ c ∈ tok, isLowerHexDigit c = true))) :=
  ⟨by decide, by decide, by decide, by decide,
   c3_messageid_format 1700000000123456 [1, 35, 69, 103, 137, 171, 205, 239]
     ['m', 'a', 'i', 'l'] [255, 254, 253, 252, 251, 250, 249, 248]
     (by decide) (by decide) (by decide) (by decide)⟩

/-- C9: for any fixed timestamp, domain name and fallback draw,
`create_messageid` is injective in the 8-byte random draw: distinct valid
draws yield distinct identifier byte strings, so two identifiers generated
in immediate succession differ unless the random source itself collides. -/
theorem c9_injective_in_random_draw (t : Nat) (fqdn : List Char) (r2 : List Nat)
    (r r' : List Nat) (hr : r.length = 8) (hr' : r'.length = 8)
    (hrb : ∀ b ∈ r, b < 256) (hrb' : ∀ b ∈ r', b < 256) (hne : r ≠ r') :
    create_messageid t r fqdn r2 ≠ create_messageid t r' fqdn r2 := by
  intro heq
  apply hne
  have hlen16 : ∀ x : List Nat, x.length = 8 → (∀ b ∈ x, b < 256) →
      (utf8Encode (bytesToHex x)).length = 16 := by
    intro x h1 h2
    rw [utf8Encode_ascii _ (bytesToHex_ascii x h2), List.length_map,
      bytesToHex_length, h1]
  unfold create_messageid at heq
  simp only [utf8Encode_append, List.append_assoc] at heq
  have h1 := List.append_cancel_left heq
  have h2 := List.append_cancel_left h1
  have h3 := List.append_cancel_left h2
  have h4 := (List.append_inj h3 ((hlen16 r hr hrb).trans (hlen16 r' hr' hrb').symm)).1
  have h5 : (bytesToHex r).map Char.toNat = (bytesToHex r').map Char.toNat := by
    rw [← utf8Encode_ascii _ (bytesToHex_ascii r hrb),
      ← utf8Encode_ascii _ (bytesToHex_ascii r' hrb')]
    exact h4
  exact bytesToHex_inj r r' hrb hrb' (hr.trans hr'.symm) (map_toNat_inj _ _ h5)

theorem c9_witness :
    (([0, 0, 0, 0, 0, 0, 0, 0] : List Nat).length = 8)
    ∧ (([0, 0, 0, 0, 0, 0, 0, 1] : List Nat).length = 8)
    ∧ (∀ b ∈ ([0, 0, 0, 0, 0, 0, 0, 0] : List Nat), b < 256)
    ∧ (∀ b ∈ ([0, 0, 0, 0, 0, 0, 0, 1] : List Nat), b < 256)
    ∧ ([0, 0, 0, 0, 0, 0, 0, 0] : List Nat) ≠ [0, 0, 0, 0, 0, 0, 0, 1]
    ∧ create_messageid 42 [0, 0, 0, 0, 0, 0, 0, 0] [] [9, 9, 9, 9, 9, 9, 9, 9]
        ≠ create_messageid 42 [0, 0, 0, 0, 0, 0, 0, 1] [] [9, 9, 9, 9, 9, 9, 9, 9] :=
  ⟨by decide, by decide, by decide, by decide, by decide,
   c9_injective_in_random_draw 42 [] [9, 9, 9, 9, 9, 9, 9, 9]
     [0, 0, 0, 0, 0, 0, 0, 0] [0, 0, 0, 0, 0, 0, 0, 1]
     (by decide) (by decide) (by decide) (by decide) (by decide)⟩

end AddMessageID
